import Mathlib

/-!
Verification of the layout-and-rasterization engine of the product-picture
studio page (`src/app/page.tsx`).

The embedding below transcribes the page's pure computational core:

* the fixed scene catalog `sceneBackgrounds` (source lines 13–52);
* the greedy word-wrap routine `wrapText` (lines 161–188), with the
  drawing context's `measureText` abstracted into an injected measurement
  callback and the emitted `fillText` calls reified as a list of lines;
* the CSS filter chain `filterValue` used by the live preview (lines
  108–111) and the identical inline filter string of the export path
  (line 314);
* the preview backdrop style `previewBackground` (lines 352–371) and the
  export-time backdrop fills of `handleDownload` (lines 208–239), both as
  functions of the backdrop parameters;
* the image-fitting arithmetic of the export path (lines 301–307);
* the export orchestration `handleDownload` (lines 190–316), with canvas
  draw calls reified as a list of draw operations.

Numbers are modelled as rationals (exact arithmetic in place of IEEE
doubles).  JavaScript's `x / 0 = Infinity` (for `x > 0`), which can arise
in the fit computation for zero-size images, is modelled explicitly by
`JsNum`.
-/

namespace ProductStudio

/-! ### Scene catalog (source lines 7–52) -/

/-- One gradient stop of a scene preset: `{ color, position }`. -/
structure GradientStop where
  color : String
  position : ℚ
deriving DecidableEq, Repr

/-- One radial overlay of a scene preset: `{ x, y, radius, color }`. -/
structure SceneOverlay where
  x : ℚ
  y : ℚ
  radius : ℚ
  color : String
deriving DecidableEq, Repr

/-- A scene preset (`SceneConfig` in the source).  The source marks
`overlays` optional but every catalog entry supplies it, and every use
site substitutes `[]` for a missing list (`?? []` / `?.forEach`), so a
plain list is an equivalent model. -/
structure SceneConfig where
  label : String
  gradientStops : List GradientStop
  overlays : List SceneOverlay
deriving DecidableEq, Repr

/-- The keys of the fixed scene catalog (`keyof typeof sceneBackgrounds`). -/
inductive SceneKey where
  | studio
  | neon
  | sunset
  | slate
deriving DecidableEq, Repr

/-- The fixed scene catalog (source lines 13–52), transcribed verbatim. -/
def sceneBackgrounds : SceneKey → SceneConfig
  | .studio =>
    { label := "Soft Studio"
      gradientStops := [⟨"#f8fafc", 0⟩, ⟨"#e2e8f0", 0.45⟩, ⟨"#eef2ff", 1⟩]
      overlays := [⟨0.25, 0.25, 0.55, "rgba(99, 102, 241, 0.18)"⟩] }
  | .neon =>
    { label := "Neon Pop"
      gradientStops := [⟨"#0f172a", 0⟩, ⟨"#1e293b", 0.45⟩, ⟨"#4c1d95", 1⟩]
      overlays :=
        [⟨0.75, 0.25, 0.5, "rgba(16, 185, 129, 0.32)"⟩,
         ⟨0.2, 0.8, 0.65, "rgba(59, 130, 246, 0.25)"⟩] }
  | .sunset =>
    { label := "Sunset Glow"
      gradientStops := [⟨"#fef3c7", 0⟩, ⟨"#f97316", 0.55⟩, ⟨"#ef4444", 1⟩]
      overlays := [⟨0.25, 0.25, 0.6, "rgba(254, 240, 138, 0.4)"⟩] }
  | .slate =>
    { label := "Graphite"
      gradientStops := [⟨"#1f2937", 0⟩, ⟨"#111827", 1⟩]
      overlays := [⟨0.2, 0.85, 0.65, "rgba(148, 163, 184, 0.28)"⟩] }

/-- The list of all scene keys, in catalog (insertion) order. -/
def sceneKeys : List SceneKey := [.studio, .neon, .sunset, .slate]

/-- The three backdrop modes (source line 64). -/
inductive BackgroundMode where
  | gradient
  | solid
  | scene
deriving DecidableEq, Repr

/-! ### Export surface constants (source lines 54–55, 247–248, 301–302) -/

def downloadWidth : ℚ := 1600

def downloadHeight : ℚ := 1200

def padding : ℚ := 140

/-- `canvas.width * 0.38` (source line 248). -/
def textColumnWidth : ℚ := downloadWidth * 0.38

/-- `canvas.width - textColumnWidth - padding * 2` (source line 301). -/
def availableImageWidth : ℚ := downloadWidth - textColumnWidth - padding * 2

/-- `canvas.height - padding * 2` (source line 302). -/
def availableImageHeight : ℚ := downloadHeight - padding * 2

/-! ### Text layout engine (`wrapText`, source lines 161–188) -/

/-- One emitted `ctx.fillText(line, x, drawY)` call of `wrapText`. -/
structure TextLine where
  text : String
  x : ℚ
  y : ℚ
deriving DecidableEq, Repr

/-- The observable outcome of `wrapText`: the emitted lines in order, and
the returned final cursor `drawY`. -/
structure LayoutResult where
  lines : List TextLine
  finalY : ℚ
deriving DecidableEq, Repr

/-- The loop of `wrapText` (source lines 172–187), one step per word of
`text.split(' ')`, plus the final flush after the loop.  `measure`
abstracts `ctx.measureText(·).width` for the ambient font. -/
def wrapAux (measure : String → ℚ) (x maxWidth lineHeight : ℚ) :
    List String → String → ℚ → LayoutResult
  | [], line, drawY =>
    if line ≠ "" then ⟨[⟨line, x, drawY⟩], drawY + lineHeight⟩ else ⟨[], drawY⟩
  | word :: words, line, drawY =>
    let testLine := if line ≠ "" then line ++ " " ++ word else word
    if measure testLine > maxWidth ∧ line ≠ "" then
      let rest := wrapAux measure x maxWidth lineHeight words word (drawY + lineHeight)
      ⟨⟨line, x, drawY⟩ :: rest.lines, rest.finalY⟩
    else
      wrapAux measure x maxWidth lineHeight words testLine drawY

/-- `wrapText` (source lines 161–188).  `text.split(' ')` splits at every
single space character, keeping empty fragments, exactly as in
JavaScript. -/
def wrapText (measure : String → ℚ) (text : String) (x y maxWidth lineHeight : ℚ) :
    LayoutResult :=
  wrapAux measure x maxWidth lineHeight (text.split (· == ' ')) "" y

/-- Joining fragments with single spaces (the inverse of `split(' ')`);
used to state the content-preservation law. -/
def joinSp : List String → String
  | [] => ""
  | [w] => w
  | w :: ws => w ++ " " ++ joinSp ws

/-- Modelled from the spec (§4.2): the greedy-fit grouping of a word list.
Words are greedily accumulated into the current group; the candidate line
is the current group extended by the next word, rendered with single
spaces; if the candidate's measured width exceeds `maxWidth` and the
current group is non-empty, the group is closed and a new group starts
with just the word.  This is the spec-side description against which the
source's `wrapText` is compared. -/
def greedyGroupsAux (measure : String → ℚ) (maxWidth : ℚ) :
    List String → List String → List (List String)
  | [], cur => if cur = [] then [] else [cur]
  | word :: words, cur =>
    let cand := cur ++ [word]
    if measure (joinSp cand) > maxWidth ∧ cur ≠ [] then
      cur :: greedyGroupsAux measure maxWidth words [word]
    else
      greedyGroupsAux measure maxWidth words cand

/-- Modelled from the spec (§4.2): greedy-fit groups of a word list. -/
def greedyGroups (measure : String → ℚ) (maxWidth : ℚ) (words : List String) :
    List (List String) :=
  greedyGroupsAux measure maxWidth words []

/-! ### Filter chains (source lines 108–111 and 314) -/

/-- `filterValue` (source lines 108–111), the CSS filter string applied to
the live preview image.  `ns` abstracts JavaScript's number-to-string
conversion inside the template literal. -/
def filterValue (ns : ℚ → String) (brightness contrast saturation blur : ℚ) : String :=
  "brightness(" ++ ns brightness ++ ") contrast(" ++ ns contrast ++
    ") saturate(" ++ ns saturation ++ ") blur(" ++ ns blur ++ "px)"

/-- The inline `ctx.filter` template of the export path (source line 314),
transcribed independently of `filterValue`. -/
def exportFilter (ns : ℚ → String) (brightness contrast saturation blur : ℚ) : String :=
  "brightness(" ++ ns brightness ++ ") contrast(" ++ ns contrast ++
    ") saturate(" ++ ns saturation ++ ") blur(" ++ ns blur ++ "px)"

/-! ### Preview backdrop (source lines 113–135 and 352–371) -/

/-- JavaScript's `Math.round` on an exact rational: round half towards
positive infinity. -/
def jsRound (q : ℚ) : ℤ := ⌊q + 1/2⌋

/-- The `percent` helper of the overlay template (source lines 124, 363):
`` `${Math.round(value * 100)}%` ``. -/
def pct (value : ℚ) : String := toString (jsRound (value * 100)) ++ "%"

/-- The scene gradient CSS string (source lines 358–360):
`` `linear-gradient(135deg, ${stops.map(s => `${s.color} ${round(s.position*100)}%`).join(', ')})` ``. -/
def sceneGradientCss (scene : SceneConfig) : String :=
  "linear-gradient(135deg, " ++
    String.intercalate ", "
      (scene.gradientStops.map fun stop => stop.color ++ " " ++ pct stop.position) ++
    ")"

/-- One overlay's CSS layer string (source lines 362–367). -/
def overlayCss (o : SceneOverlay) : String :=
  "radial-gradient(circle at " ++ pct o.x ++ " " ++ pct o.y ++ ", " ++
    o.color ++ " 0%, rgba(255, 255, 255, 0) " ++
    toString (jsRound (o.radius * 100)) ++ "%)"

/-- The CSS layer list `[...overlays, gradient]` built by the scene branch
of `previewBackground` (source line 368). -/
def previewSceneLayers (scene : SceneConfig) : List String :=
  scene.overlays.map overlayCss ++ [sceneGradientCss scene]

/-- `previewBackground` (source lines 352–371): the `background` CSS value
of the live preview surface. -/
def previewBackground (mode : BackgroundMode)
    (solidColor gradientStart gradientEnd : String) (sceneKey : SceneKey) : String :=
  match mode with
  | .solid => solidColor
  | .scene => String.intercalate "," (previewSceneLayers (sceneBackgrounds sceneKey))
  | .gradient => "linear-gradient(130deg, " ++ gradientStart ++ ", " ++ gradientEnd ++ ")"

/-- Modelled from the spec (§4.5 / §4.1): CSS paints the layers of a
`background-image` list with the first-listed layer topmost, so the
bottom-to-top paint order of a layer list is its reverse. -/
def cssLayersBottomToTop (layers : List String) : List String := layers.reverse

/-- Modelled from the spec (§4.1): the CSS gradient angle `135deg` denotes
the direction vector `(1, 1)` in screen coordinates (x right, y down) —
"direction vector (1,1) normalized". -/
def cssDir135 : ℚ × ℚ := (1, 1)

/-- Two direction vectors describe the same gradient angle iff they are
parallel (proportional), i.e. their cross product vanishes. -/
def parallelDir (u v : ℚ × ℚ) : Prop := u.1 * v.2 = u.2 * v.1

/-- The direction vector of the export's linear gradients, from
`createLinearGradient(0, 0, canvas.width, canvas.height)` (source lines
213, 234). -/
def exportGradientDir : ℚ × ℚ := (downloadWidth, downloadHeight)

/-! ### Export drawing operations -/

/-- A canvas fill style as configured by the export path. -/
inductive FillStyle where
  | color (c : String)
  | linearGradient (x0 y0 x1 y1 : ℚ) (stops : List (ℚ × String))
  | radialGradient (x0 y0 r0 x1 y1 r1 : ℚ) (stops : List (ℚ × String))
deriving DecidableEq, Repr

/-- A reified canvas draw call of the export path. -/
inductive DrawOp where
  | fillRect (style : FillStyle) (x y w h : ℚ)
  | roundRectFill (fill : String) (x y w h radius : ℚ)
  | roundRectFillStroke (fill stroke : String) (lineWidth x y w h radius : ℚ)
  | fillTextOp (font color text : String) (x y : ℚ)
  | drawImage (shadowColor : String) (shadowBlur shadowOffsetX shadowOffsetY : ℚ)
      (filter : String) (x y w h : ℚ)
deriving DecidableEq, Repr

/-- The export-time backdrop fills (source lines 208–239): solid fill,
scene gradient plus radial overlays drawn in catalog order, or the
two-stop linear gradient, each covering the full canvas. -/
def exportBackdropOps (mode : BackgroundMode)
    (solidColor gradientStart gradientEnd : String) (sceneKey : SceneKey) :
    List DrawOp :=
  match mode with
  | .solid => [.fillRect (.color solidColor) 0 0 downloadWidth downloadHeight]
  | .scene =>
    let scene := sceneBackgrounds sceneKey
    .fillRect
        (.linearGradient 0 0 downloadWidth downloadHeight
          (scene.gradientStops.map fun stop => (stop.position, stop.color)))
        0 0 downloadWidth downloadHeight ::
      scene.overlays.map fun o =>
        .fillRect
          (.radialGradient (downloadWidth * o.x) (downloadHeight * o.y) 0
            (downloadWidth * o.x) (downloadHeight * o.y)
            (max downloadWidth downloadHeight * o.radius)
            [(0, o.color), (1, "rgba(255,255,255,0)")])
          0 0 downloadWidth downloadHeight
  | .gradient =>
    [.fillRect
        (.linearGradient 0 0 downloadWidth downloadHeight
          [(0, gradientStart), (1, gradientEnd)])
        0 0 downloadWidth downloadHeight]

/-! ### Image fitter (source lines 301–307) -/

/-- A JavaScript number that is either finite or `+Infinity`; division of
a positive number by zero yields `Infinity` in JavaScript, and the fit
computation divides by the image's natural dimensions. -/
inductive JsNum where
  | fin (q : ℚ)
  | inf
deriving DecidableEq, Repr

/-- JavaScript division `a / b` for `a > 0` and `b ≥ 0`: `Infinity` when
`b = 0`, the exact quotient otherwise.  (The export path only divides the
positive constants `availableImageWidth` and `availableImageHeight` by
the image's natural dimensions.) -/
def jsDivPos (a b : ℚ) : JsNum := if b = 0 then .inf else .fin (a / b)

/-- `Math.min` on two JavaScript numbers. -/
def jsMin : JsNum → JsNum → JsNum
  | .inf, y => y
  | .fin a, .inf => .fin a
  | .fin a, .fin b => .fin (min a b)

/-- Extract the rational value of a finite `JsNum` (junk value `0` on
`Infinity`; every use below is on a provably finite number). -/
def JsNum.toQ : JsNum → ℚ
  | .fin q => q
  | .inf => 0

/-- `scale = Math.min(availableImageWidth / w, availableImageHeight / h, 1.2)`
(source line 303). -/
def fitScale (naturalWidth naturalHeight : ℕ) : ℚ :=
  (jsMin
    (jsMin (jsDivPos availableImageWidth naturalWidth)
      (jsDivPos availableImageHeight naturalHeight))
    (.fin 1.2)).toQ

/-- `drawWidth = baseImage.width * scale` (source line 304). -/
def drawWidth (naturalWidth naturalHeight : ℕ) : ℚ :=
  naturalWidth * fitScale naturalWidth naturalHeight

/-- `drawHeight = baseImage.height * scale` (source line 305). -/
def drawHeight (naturalWidth naturalHeight : ℕ) : ℚ :=
  naturalHeight * fitScale naturalWidth naturalHeight

/-- `imageX = canvas.width - padding - drawWidth` (source line 306). -/
def imageX (naturalWidth naturalHeight : ℕ) : ℚ :=
  downloadWidth - padding - drawWidth naturalWidth naturalHeight

/-- `imageY = padding + (availableImageHeight - drawHeight) / 2`
(source line 307). -/
def imageY (naturalWidth naturalHeight : ℕ) : ℚ :=
  padding + (availableImageHeight - drawHeight naturalWidth naturalHeight) / 2

/-- Modelled from the spec (§4.3/§4.4): the drawing surface's `drawImage`
is a no-op — not an error — when the source image has a zero natural
dimension (and hence a zero-size placement), so the compositor skips the
draw without failing the export.  The shadow constants are those of
source lines 310–313. -/
def drawImageOrSkip (naturalWidth naturalHeight : ℕ) (filter : String)
    (x y w h : ℚ) : Option DrawOp :=
  if naturalWidth = 0 ∨ naturalHeight = 0 then none
  else some (.drawImage "rgba(15, 23, 42, 0.22)" 55 24 32 filter x y w h)

/-! ### Compositor (`handleDownload`, source lines 190–336) -/

/-- The per-render parameter snapshot read by `handleDownload` (state
fields of source lines 60–72). -/
structure DesignParams where
  brightness : ℚ
  contrast : ℚ
  saturation : ℚ
  blur : ℚ
  backgroundMode : BackgroundMode
  solidColor : String
  gradientStart : String
  gradientEnd : String
  sceneKey : SceneKey
  tagline : String
  description : String
  ctaText : String
  badgeText : String

/-- The draw-call sequence of a successful export (source lines 208–316).
`ns` abstracts number-to-string conversion in template literals;
`measure font text` abstracts `ctx.measureText(text).width` under
`ctx.font = font`. -/
def composeExport (ns : ℚ → String) (measure : String → String → ℚ)
    (p : DesignParams) (naturalWidth naturalHeight : ℕ) : List DrawOp :=
  let backdrop := exportBackdropOps p.backgroundMode p.solidColor p.gradientStart
    p.gradientEnd p.sceneKey
  let card : DrawOp := .roundRectFill "rgba(255, 255, 255, 0.18)" 80 80
    (downloadWidth - 160) (downloadHeight - 160) 48
  let cursorY0 : ℚ := padding + 20
  let badgeFont := "600 28px \"Inter\""
  let badgeStep : List DrawOp × ℚ :=
    if p.badgeText ≠ "" then
      let badgeWidth := measure badgeFont p.badgeText.toUpper + 28 * 2
      ([.roundRectFillStroke "rgba(79, 70, 229, 0.12)" "rgba(79, 70, 229, 0.35)" 2
          padding cursorY0 badgeWidth 58 32,
        .fillTextOp badgeFont "#4338ca" p.badgeText.toUpper (padding + 28)
          (cursorY0 + 58 / 2)],
       cursorY0 + 58 + 48)
    else ([], cursorY0)
  let taglineFont := "700 78px \"Inter\""
  let taglineStep : List DrawOp × ℚ :=
    if p.tagline ≠ "" then
      let r := wrapText (measure taglineFont) p.tagline padding badgeStep.2
        textColumnWidth 84
      (r.lines.map fun l => .fillTextOp taglineFont "#0f172a" l.text l.x l.y,
       r.finalY + 36)
    else ([], badgeStep.2)
  let descriptionFont := "400 32px \"Inter\""
  let descriptionStep : List DrawOp × ℚ :=
    if p.description ≠ "" then
      let r := wrapText (measure descriptionFont) p.description padding taglineStep.2
        textColumnWidth 46
      (r.lines.map fun l => .fillTextOp descriptionFont "rgba(15, 23, 42, 0.75)" l.text l.x l.y,
       r.finalY + 40)
    else ([], taglineStep.2)
  let ctaFont := "600 32px \"Inter\""
  let ctaOps : List DrawOp :=
    if p.ctaText ≠ "" then
      let metricsWidth := measure ctaFont p.ctaText
      let buttonWidth := max (metricsWidth + 80) 260
      [.roundRectFill "#6366f1" padding descriptionStep.2 buttonWidth 76 (76 / 2),
       .fillTextOp ctaFont "#ffffff" p.ctaText
         (padding + buttonWidth / 2 - metricsWidth / 2) (descriptionStep.2 + 76 / 2 + 4)]
    else []
  let imageOps : List DrawOp :=
    (drawImageOrSkip naturalWidth naturalHeight
        (exportFilter ns p.brightness p.contrast p.saturation p.blur)
        (imageX naturalWidth naturalHeight) (imageY naturalWidth naturalHeight)
        (drawWidth naturalWidth naturalHeight)
        (drawHeight naturalWidth naturalHeight)).toList
  backdrop ++ [card] ++ badgeStep.1 ++ taglineStep.1 ++ descriptionStep.1 ++
    ctaOps ++ imageOps

/-- The observable outcome of an export attempt. -/
inductive ExportOutcome where
  | noImage (errorMsg : String)
  | rendered (ops : List DrawOp)

/-- `handleDownload` (source lines 190–336): with no uploaded image it
reports `'Upload an image first.'` and returns before any surface work;
otherwise it composes the export onto a fresh canvas.  `imageSrc`
carries the decoded image's natural dimensions. -/
def handleDownload (ns : ℚ → String) (measure : String → String → ℚ)
    (imageSrc : Option (ℕ × ℕ)) (p : DesignParams) : ExportOutcome :=
  match imageSrc with
  | none => .noImage "Upload an image first."
  | some (w, h) => .rendered (composeExport ns measure p w h)

/-! ## Helper lemmas -/

theorem mk_data (s : String) : String.mk s.data = s := by
  cases s
  rfl

theorem append_ne_empty_left {a : String} (b : String) (h : a ≠ "") : a ++ b ≠ "" := by
  intro hab
  apply h
  have hd := congrArg String.data hab
  rw [String.data_append] at hd
  have : a.data = [] := (List.append_eq_nil.mp hd).1
  calc a = String.mk a.data := (mk_data a).symm
    _ = String.mk [] := by rw [this]
    _ = "" := rfl

theorem joinSp_cons (w : String) (ws : List String) :
    joinSp (w :: ws) = if ws = [] then w else w ++ " " ++ joinSp ws := by
  cases ws <;> rfl

theorem joinSp_ne_empty {l : List String} (h : ∀ w ∈ l, w ≠ "") (hne : l ≠ []) :
    joinSp l ≠ "" := by
  match l with
  | [] => exact absurd rfl hne
  | [a] => exact h a (by simp)
  | a :: b :: t =>
    show a ++ " " ++ joinSp (b :: t) ≠ ""
    exact append_ne_empty_left _ (append_ne_empty_left _ (h a (by simp)))

theorem joinSp_glue (a b : String) (l : List String) :
    joinSp ((a ++ " " ++ b) :: l) = joinSp (a :: b :: l) := by
  cases l with
  | nil => rfl
  | cons c t => simp [joinSp, String.append_assoc]

theorem joinSp_append_single {cur : List String} (hc : cur ≠ []) (w : String) :
    joinSp (cur ++ [w]) = joinSp cur ++ " " ++ w := by
  induction cur with
  | nil => exact absurd rfl hc
  | cons a t ih =>
    cases t with
    | nil => rfl
    | cons b t2 =>
      show joinSp (a :: ((b :: t2) ++ [w])) = joinSp (a :: b :: t2) ++ " " ++ w
      rw [joinSp_cons a ((b :: t2) ++ [w]), if_neg (by simp),
        joinSp_cons a (b :: t2), if_neg (by simp), ih (by simp)]
      simp [String.append_assoc]

theorem wrapAux_lines_ne_nil (measure : String → ℚ) (x mw lh : ℚ)
    (ws : List String) : ∀ (line : String) (y : ℚ), line ≠ "" →
    (wrapAux measure x mw lh ws line y).lines ≠ [] := by
  induction ws with
  | nil =>
    intro line y h
    simp [wrapAux, h]
  | cons w ws ih =>
    intro line y h
    simp only [wrapAux]
    rw [if_pos h]
    split
    · simp
    · exact ih (line ++ " " ++ w) _ (append_ne_empty_left _ (append_ne_empty_left _ h))

theorem joinSp_map_mk (ls : List (List Char)) :
    joinSp (ls.map String.mk) = String.mk (List.intercalate [' '] ls) := by
  match ls with
  | [] => rfl
  | [a] => simp [joinSp, List.intercalate, List.intersperse]
  | a :: b :: t =>
    have ih := joinSp_map_mk (b :: t)
    show String.mk a ++ " " ++ joinSp ((b :: t).map String.mk) = _
    rw [ih]
    apply String.ext
    simp [String.data_append, List.intercalate, List.intersperse]

theorem joinSp_split (s : String) : joinSp (s.split (· == ' ')) = s := by
  rw [String.split_of_valid, joinSp_map_mk]
  have h : List.intercalate [' '] (List.splitOnP (fun c => c == ' ') s.data) = s.data :=
    List.intercalate_splitOn s.data ' '
  rw [h, mk_data]

theorem wrapAux_cons_empty (measure : String → ℚ) (x mw lh : ℚ) (w : String)
    (ws : List String) (y : ℚ) :
    wrapAux measure x mw lh (w :: ws) "" y = wrapAux measure x mw lh ws w y := by
  simp only [wrapAux]
  rw [if_neg (by simp)]
  rw [if_neg (by simp)]

theorem wrapAux_cons_wrap (measure : String → ℚ) (x mw lh : ℚ) (w : String)
    (ws : List String) (line : String) (y : ℚ)
    (hline : line ≠ "") (hover : measure (line ++ " " ++ w) > mw) :
    wrapAux measure x mw lh (w :: ws) line y =
      ⟨⟨line, x, y⟩ :: (wrapAux measure x mw lh ws w (y + lh)).lines,
       (wrapAux measure x mw lh ws w (y + lh)).finalY⟩ := by
  simp only [wrapAux]
  rw [if_pos hline, if_pos ⟨hover, hline⟩]

theorem wrapAux_cons_fit (measure : String → ℚ) (x mw lh : ℚ) (w : String)
    (ws : List String) (line : String) (y : ℚ)
    (hline : line ≠ "") (hover : ¬ measure (line ++ " " ++ w) > mw) :
    wrapAux measure x mw lh (w :: ws) line y =
      wrapAux measure x mw lh ws (line ++ " " ++ w) y := by
  simp only [wrapAux]
  rw [if_pos hline, if_neg (fun hk => hover hk.1)]

theorem wrapAux_join (measure : String → ℚ) (x mw lh : ℚ) (ws : List String) :
    ∀ (line : String) (y : ℚ), (∀ w ∈ ws, w ≠ "") →
    joinSp ((wrapAux measure x mw lh ws line y).lines.map TextLine.text) =
      if line = "" then joinSp ws else joinSp (line :: ws) := by
  induction ws with
  | nil =>
    intro line y _
    by_cases h : line = ""
    · simp [wrapAux, h, joinSp]
    · simp [wrapAux, h, joinSp]
  | cons w ws ih =>
    intro line y hws
    have hw : w ≠ "" := hws w (by simp)
    have hws' : ∀ u ∈ ws, u ≠ "" := fun u hu => hws u (by simp [hu])
    by_cases h : line = ""
    · subst h
      rw [wrapAux_cons_empty, ih w y hws', if_neg hw, if_pos rfl]
    · by_cases hover : measure (line ++ " " ++ w) > mw
      · rw [wrapAux_cons_wrap measure x mw lh w ws line y h hover]
        have hne := wrapAux_lines_ne_nil measure x mw lh ws w (y + lh) hw
        have hrec := ih w (y + lh) hws'
        rw [if_neg hw] at hrec
        show joinSp (line :: (wrapAux measure x mw lh ws w (y + lh)).lines.map TextLine.text) = _
        rw [joinSp_cons, if_neg (by simpa using hne), hrec, if_neg h,
          joinSp_cons line (w :: ws), if_neg (by simp)]
      · rw [wrapAux_cons_fit measure x mw lh w ws line y h hover]
        have hrec := ih (line ++ " " ++ w) y hws'
        rw [if_neg (append_ne_empty_left _ (append_ne_empty_left _ h))] at hrec
        rw [hrec, joinSp_glue, if_neg h]

theorem wrapAux_groups (measure : String → ℚ) (x mw lh : ℚ) (ws : List String) :
    ∀ (cur : List String) (y : ℚ), (∀ w ∈ ws, w ≠ "") → (∀ w ∈ cur, w ≠ "") →
    (wrapAux measure x mw lh ws (joinSp cur) y).lines.map TextLine.text =
      (greedyGroupsAux measure mw ws cur).map joinSp := by
  induction ws with
  | nil =>
    intro cur y _ hcur
    by_cases hc : cur = []
    · subst hc
      simp [wrapAux, greedyGroupsAux, joinSp]
    · have hne : joinSp cur ≠ "" := joinSp_ne_empty hcur hc
      simp [wrapAux, greedyGroupsAux, hne, hc]
  | cons w ws ih =>
    intro cur y hws hcur
    have hw : w ≠ "" := hws w (by simp)
    have hws' : ∀ u ∈ ws, u ≠ "" := fun u hu => hws u (by simp [hu])
    by_cases hc : cur = []
    · subst hc
      show (wrapAux measure x mw lh (w :: ws) "" y).lines.map TextLine.text = _
      rw [wrapAux_cons_empty]
      simp only [greedyGroupsAux]
      rw [if_neg (by simp)]
      have := ih [w] y hws' (by simpa using hw)
      simpa [joinSp] using this
    · have hne : joinSp cur ≠ "" := joinSp_ne_empty hcur hc
      have hcand : joinSp (cur ++ [w]) = joinSp cur ++ " " ++ w :=
        joinSp_append_single hc w
      have hcurw : ∀ u ∈ cur ++ [w], u ≠ "" := by
        intro u hu
        rcases List.mem_append.mp hu with h1 | h1
        · exact hcur u h1
        · rw [List.mem_singleton.mp h1]
          exact hw
      by_cases hover : measure (joinSp cur ++ " " ++ w) > mw
      · rw [wrapAux_cons_wrap measure x mw lh w ws (joinSp cur) y hne hover]
        simp only [greedyGroupsAux]
        rw [if_pos ⟨by rw [hcand]; exact hover, hc⟩]
        rw [List.map_cons, List.map_cons]
        refine congrArg₂ List.cons rfl ?_
        have := ih [w] (y + lh) hws' (by simpa using hw)
        simpa [joinSp] using this
      · rw [wrapAux_cons_fit measure x mw lh w ws (joinSp cur) y hne hover]
        simp only [greedyGroupsAux]
        rw [if_neg (fun hk => hover (hcand ▸ hk.1))]
        have := ih (cur ++ [w]) y hws' hcurw
        rw [hcand] at this
        exact this

theorem splitOnP_all_sep {α : Type} (p : α → Bool) (l : List α) (h : ∀ a ∈ l, p a) :
    l.splitOnP p = List.replicate (l.length + 1) [] := by
  induction l with
  | nil => simp
  | cons a t ih =>
    rw [List.splitOnP_cons, if_pos (h a (by simp)), ih (fun b hb => h b (by simp [hb]))]
    rfl

theorem split_all_spaces {s : String} (h : ∀ c ∈ s.data, c = ' ') :
    ∀ w ∈ s.split (· == ' '), w = "" := by
  intro w hw
  rw [String.split_of_valid] at hw
  obtain ⟨piece, hp, rfl⟩ := List.mem_map.mp hw
  rw [splitOnP_all_sep _ _ (fun c hc => by simp [h c hc])] at hp
  rw [List.eq_of_mem_replicate hp]

theorem wrapAux_empty_words (measure : String → ℚ) (x mw lh : ℚ) (ws : List String) :
    ∀ y : ℚ, (∀ w ∈ ws, w = "") →
    wrapAux measure x mw lh ws "" y = ⟨[], y⟩ := by
  induction ws with
  | nil =>
    intro y _
    simp [wrapAux]
  | cons w ws ih =>
    intro y hws
    have hw : w = "" := hws w (by simp)
    rw [wrapAux_cons_empty, hw]
    exact ih y (fun u hu => hws u (by simp [hu]))

theorem jsRound_coe_int (n : ℤ) : jsRound (n : ℚ) = n := by
  unfold jsRound
  rw [add_comm, Int.floor_add_int,
    Int.floor_eq_zero_iff.mpr ⟨by norm_num, by norm_num⟩, zero_add]

theorem pct_eval (value : ℚ) (n : ℤ) (hv : value * 100 = (n : ℚ)) :
    pct value = toString n ++ "%" := by
  rw [pct, hv, jsRound_coe_int]

theorem jsMin_fin_right_toQ_le (a : JsNum) (q : ℚ) : (jsMin a (.fin q)).toQ ≤ q := by
  cases a <;> simp [jsMin, JsNum.toQ, min_le_right]

theorem fitScale_le_divW {w : ℕ} (h : ℕ) (hw : w ≠ 0) :
    fitScale w h ≤ availableImageWidth / w := by
  unfold fitScale
  rw [jsDivPos, if_neg (by simpa using hw)]
  cases hd2 : jsDivPos availableImageHeight h with
  | fin b =>
    simp only [jsMin, JsNum.toQ]
    exact le_trans (min_le_left _ _) (min_le_left _ _)
  | inf =>
    simp only [jsMin, JsNum.toQ]
    exact min_le_left _ _

/-! ## Claim theorems -/

/-- C1, counterexample: the content-preservation law fails as stated.  For
the input text `" a b"` (leading space) with the measurement function
`length` and `maxWidth = 1`, wraps are forced (two lines are emitted), yet
joining the emitted line texts with single spaces yields `"a b"`, not the
original `" a b"`: JavaScript's `split(' ')` produces an empty first word
which the wrap loop silently merges away. -/
theorem wrapText_content_cx :
    2 ≤ (wrapText (fun s => (s.length : ℚ)) " a b" 0 0 1 10).lines.length ∧
    joinSp ((wrapText (fun s => (s.length : ℚ)) " a b" 0 0 1 10).lines.map
      TextLine.text) ≠ " a b" := by
  constructor <;>
    · simp only [wrapText, String.split_of_valid]
      decide

/-- C1, amended: for every input text whose `split(' ')` fragments are all
non-empty (no leading, trailing, or consecutive spaces), `wrapText` emits
exactly the greedy-fit groups of the word list — the emitted line texts
are the groups joined with single spaces, so in particular the number of
output lines equals the number of greedy-fit groups — and joining all
emitted line texts with single spaces reconstructs the original text
exactly.  (This holds whether or not wraps are forced.) -/
theorem wrapText_greedy_content (measure : String → ℚ) (text : String)
    (x y maxWidth lineHeight : ℚ)
    (h : ∀ w ∈ text.split (· == ' '), w ≠ "") :
    (wrapText measure text x y maxWidth lineHeight).lines.map TextLine.text =
      (greedyGroups measure maxWidth (text.split (· == ' '))).map joinSp ∧
    (wrapText measure text x y maxWidth lineHeight).lines.length =
      (greedyGroups measure maxWidth (text.split (· == ' '))).length ∧
    joinSp ((wrapText measure text x y maxWidth lineHeight).lines.map TextLine.text) =
      text := by
  have hg : (wrapText measure text x y maxWidth lineHeight).lines.map TextLine.text =
      (greedyGroups measure maxWidth (text.split (· == ' '))).map joinSp := by
    unfold wrapText greedyGroups
    have := wrapAux_groups measure x maxWidth lineHeight (text.split (· == ' ')) [] y h
      (by simp)
    simpa [joinSp] using this
  refine ⟨hg, ?_, ?_⟩
  · have := congrArg List.length hg
    simpa using this
  · have hj := wrapAux_join measure x maxWidth lineHeight (text.split (· == ' ')) "" y h
    rw [if_pos rfl] at hj
    unfold wrapText
    rw [hj, joinSp_split]

/-- C1, witness: the amended theorem at the concrete text `"aa bb cc"`
with the `length` measurement and `maxWidth = 5`. -/
theorem wrapText_greedy_content_witness :
    (∀ w ∈ ("aa bb cc" : String).split (· == ' '), w ≠ "") ∧
    joinSp ((wrapText (fun s => (s.length : ℚ)) "aa bb cc" 140 160 5 84).lines.map
      TextLine.text) = "aa bb cc" :=
  ⟨by simp only [String.split_of_valid]; decide,
   (wrapText_greedy_content (fun s => (s.length : ℚ)) "aa bb cc" 140 160 5 84
     (by simp only [String.split_of_valid]; decide)).2.2⟩

/-- C2: the CSS filter chain used by the live preview (`filterValue`,
source lines 108–111) and the one used by the export (`ctx.filter`,
source line 314) are equal as functions of the four parameters and of the
number renderer, and both list the filters in the fixed order
brightness, contrast, saturate, blur. -/
theorem filter_chains_identical (ns : ℚ → String)
    (brightness contrast saturation blur : ℚ) :
    filterValue ns brightness contrast saturation blur =
      exportFilter ns brightness contrast saturation blur ∧
    filterValue ns brightness contrast saturation blur =
      "brightness(" ++ ns brightness ++ ") contrast(" ++ ns contrast ++
        ") saturate(" ++ ns saturation ++ ") blur(" ++ ns blur ++ "px)" :=
  ⟨rfl, rfl⟩

/-- C3, counterexample: the preview's backdrop layer composition does not
match the export's.  For the `neon` scene (two overlays), the preview's
bottom-to-top paint order — CSS paints the first-listed background layer
topmost — is the base gradient followed by the overlays in REVERSE
catalog order, which differs from the export's order (base gradient
first, then the overlays in catalog order, first-listed bottom-most). -/
theorem backdrop_preview_export_cx :
    cssLayersBottomToTop (previewSceneLayers (sceneBackgrounds SceneKey.neon)) ≠
      sceneGradientCss (sceneBackgrounds SceneKey.neon) ::
        (sceneBackgrounds SceneKey.neon).overlays.map overlayCss := by
  have h75 : pct 0.75 = "75%" := pct_eval _ 75 (by norm_num)
  have h25 : pct 0.25 = "25%" := pct_eval _ 25 (by norm_num)
  have h20 : pct 0.2 = "20%" := pct_eval _ 20 (by norm_num)
  have h80 : pct 0.8 = "80%" := pct_eval _ 80 (by norm_num)
  have h0 : pct 0 = "0%" := pct_eval _ 0 (by norm_num)
  have h45 : pct 0.45 = "45%" := pct_eval _ 45 (by norm_num)
  have h100 : pct 1 = "100%" := pct_eval _ 100 (by norm_num)
  have r50 : jsRound ((0.5 : ℚ) * 100) = 50 := by
    rw [show ((0.5 : ℚ) * 100) = ((50 : ℤ) : ℚ) by norm_num, jsRound_coe_int]
  have r65 : jsRound ((0.65 : ℚ) * 100) = 65 := by
    rw [show ((0.65 : ℚ) * 100) = ((65 : ℤ) : ℚ) by norm_num, jsRound_coe_int]
  simp only [cssLayersBottomToTop, previewSceneLayers, sceneBackgrounds, sceneGradientCss,
    overlayCss, List.map_cons, List.map_nil, List.reverse_append, List.reverse_cons,
    List.reverse_nil, h75, h25, h20, h80, h0, h45, h100, r50, r65]
  decide

/-- C3, amended: for every scene and every backdrop parameter set, the
preview and the export use the same gradient stop ordering (catalog
order) and both place the base gradient bottom-most; but the preview
stacks the radial overlays in REVERSE catalog order (CSS first-listed =
topmost) while the export draws them in catalog order, and the gradient
angle differs: the preview hard-codes `135deg` (scene) / `130deg`
(gradient mode) while the export's gradients run along the canvas
diagonal `(1600, 1200)`, which is not the `135deg` direction `(1, 1)`.
Solid mode uses the same single color in both. -/
theorem backdrop_preview_export_amended (k : SceneKey) (sc gs ge : String) :
    exportBackdropOps .scene sc gs ge k =
      DrawOp.fillRect
          (.linearGradient 0 0 downloadWidth downloadHeight
            ((sceneBackgrounds k).gradientStops.map fun stop => (stop.position, stop.color)))
          0 0 downloadWidth downloadHeight ::
        (sceneBackgrounds k).overlays.map (fun o =>
          DrawOp.fillRect
            (.radialGradient (downloadWidth * o.x) (downloadHeight * o.y) 0
              (downloadWidth * o.x) (downloadHeight * o.y)
              (max downloadWidth downloadHeight * o.radius)
              [(0, o.color), (1, "rgba(255,255,255,0)")])
            0 0 downloadWidth downloadHeight) ∧
    cssLayersBottomToTop (previewSceneLayers (sceneBackgrounds k)) =
      sceneGradientCss (sceneBackgrounds k) ::
        ((sceneBackgrounds k).overlays.map overlayCss).reverse ∧
    previewBackground .solid sc gs ge k = sc ∧
    exportBackdropOps .solid sc gs ge k =
      [.fillRect (.color sc) 0 0 downloadWidth downloadHeight] ∧
    previewBackground .gradient sc gs ge k =
      "linear-gradient(130deg, " ++ gs ++ ", " ++ ge ++ ")" ∧
    exportBackdropOps .gradient sc gs ge k =
      [.fillRect (.linearGradient 0 0 downloadWidth downloadHeight [(0, gs), (1, ge)])
        0 0 downloadWidth downloadHeight] ∧
    ¬ parallelDir exportGradientDir cssDir135 := by
  refine ⟨rfl, ?_, rfl, rfl, rfl, rfl, ?_⟩
  · simp [cssLayersBottomToTop, previewSceneLayers, List.reverse_append]
  · norm_num [parallelDir, exportGradientDir, cssDir135, downloadWidth, downloadHeight]

/-- C4: the image fit of the export path computes
`scale = min(availableImageWidth / w, availableImageHeight / h, 1.2)`
(for positive natural dimensions), the scale never exceeds the `1.2` cap
for any input, `drawWidth = w * scale` never exceeds the available width,
and the placement is right-aligned (`imageX + drawWidth` is the right
edge `canvas.width - padding`) and vertically centered. -/
theorem image_fitter_correct (w h : ℕ) :
    (0 < w → 0 < h →
      fitScale w h =
        min (min (availableImageWidth / w) (availableImageHeight / h)) 1.2) ∧
    fitScale w h ≤ 1.2 ∧
    drawWidth w h ≤ availableImageWidth ∧
    imageX w h + drawWidth w h = downloadWidth - padding ∧
    imageY w h = padding + (availableImageHeight - drawHeight w h) / 2 := by
  refine ⟨?_, ?_, ?_, ?_, rfl⟩
  · intro hw hh
    unfold fitScale
    rw [jsDivPos, if_neg (by simpa using hw.ne'), jsDivPos,
      if_neg (by simpa using hh.ne')]
    rfl
  · unfold fitScale
    exact jsMin_fin_right_toQ_le _ _
  · by_cases hw : w = 0
    · subst hw
      simp only [drawWidth, Nat.cast_zero, zero_mul]
      norm_num [availableImageWidth, textColumnWidth, downloadWidth, padding]
    · have hsc := fitScale_le_divW h hw
      have hwpos : (0 : ℚ) < w := by
        exact_mod_cast Nat.pos_of_ne_zero hw
      unfold drawWidth
      calc (w : ℚ) * fitScale w h ≤ (w : ℚ) * (availableImageWidth / w) :=
            mul_le_mul_of_nonneg_left hsc (le_of_lt hwpos)
        _ = availableImageWidth := by field_simp
  · unfold imageX
    ring

/-- C4, witness: the fit equation at the concrete natural dimensions
`2000 × 1000`. -/
theorem image_fitter_correct_witness :
    0 < 2000 ∧ 0 < 1000 ∧
    fitScale 2000 1000 =
      min (min (availableImageWidth / ((2000 : ℕ) : ℚ))
        (availableImageHeight / ((1000 : ℕ) : ℚ))) 1.2 :=
  ⟨by norm_num, by norm_num,
   (image_fitter_correct 2000 1000).1 (by norm_num) (by norm_num)⟩

/-- C5: an export attempted with no source image loaded reports
`'Upload an image first.'` to the caller and performs no surface work:
the outcome carries no draw operations and is never a rendered
surface. -/
theorem export_no_image_guard (ns : ℚ → String) (measure : String → String → ℚ)
    (p : DesignParams) :
    handleDownload ns measure none p = .noImage "Upload an image first." ∧
    ∀ ops, handleDownload ns measure none p ≠ ExportOutcome.rendered ops :=
  ⟨rfl, fun _ h => ExportOutcome.noConfusion h⟩

/-- C6: degenerate (zero) natural dimensions yield a zero-size placement
(`drawWidth = 0` or `drawHeight = 0`), the fit itself never errors (it is
a total function), and the compositor's image-draw step skips the draw
without failing the export. -/
theorem degenerate_image_skip (w h : ℕ) (hdeg : w = 0 ∨ h = 0)
    (filter : String) (q r : ℚ) :
    (drawWidth w h = 0 ∨ drawHeight w h = 0) ∧
    drawImageOrSkip w h filter q r (drawWidth w h) (drawHeight w h) = none := by
  constructor
  · rcases hdeg with h0 | h0
    · left
      simp [drawWidth, h0]
    · right
      simp [drawHeight, h0]
  · rw [drawImageOrSkip, if_pos hdeg]

/-- C6, witness: a zero-width image (`0 × 800`) yields a zero-size
placement and a skipped draw. -/
theorem degenerate_image_skip_witness :
    ((0 : ℕ) = 0 ∨ (800 : ℕ) = 0) ∧
    ((drawWidth 0 800 = 0 ∨ drawHeight 0 800 = 0) ∧
      drawImageOrSkip 0 800 "f" 1 2 (drawWidth 0 800) (drawHeight 0 800) = none) :=
  ⟨Or.inl rfl, degenerate_image_skip 0 800 (Or.inl rfl) "f" 1 2⟩

/-- C7: for the empty input string, `wrapText` emits zero lines and
returns a final cursor equal to the starting `y`, for every measurement
function and every other argument. -/
theorem wrapText_empty_input (measure : String → ℚ) (x y maxWidth lineHeight : ℚ) :
    wrapText measure "" x y maxWidth lineHeight = ⟨[], y⟩ := by
  have hsplit : "".split (· == ' ') = [""] := by
    rw [String.split_of_valid]
    rfl
  unfold wrapText
  rw [hsplit]
  exact wrapAux_empty_words measure x maxWidth lineHeight [""] y (by simp)

/-- C8: a single word (no spaces) whose measured width exceeds `maxWidth`
is still placed on its own line — no splitting, no error — the line is
flushed at `(x, y)` and the returned cursor includes the trailing
`lineHeight` advance. -/
theorem wrapText_overflowing_word (measure : String → ℚ) (word : String)
    (x y maxWidth lineHeight : ℚ) (hword : word ≠ "") (hsp : ' ' ∉ word.data)
    (hover : measure word > maxWidth) :
    wrapText measure word x y maxWidth lineHeight =
      ⟨[⟨word, x, y⟩], y + lineHeight⟩ := by
  have hsplit : word.split (· == ' ') = [word] := by
    rw [String.split_of_valid,
      List.splitOnP_eq_single _ _ (fun c hc => by
        simp only [beq_iff_eq]
        rintro rfl
        exact hsp hc)]
    simp [mk_data]
  unfold wrapText
  rw [hsplit, wrapAux_cons_empty]
  simp [wrapAux, hword]

/-- C8, witness: the word `"hello"` with the `length` measurement and
`maxWidth = 3` overflows and is still placed on its own line. -/
theorem wrapText_overflowing_word_witness :
    (("hello" : String) ≠ "" ∧ ' ' ∉ ("hello" : String).data ∧
      (("hello" : String).length : ℚ) > 3) ∧
    wrapText (fun s => (s.length : ℚ)) "hello" 0 7 3 10 =
      ⟨[⟨"hello", 0, 7⟩], 7 + 10⟩ :=
  ⟨⟨by decide, by decide, by decide⟩,
   wrapText_overflowing_word (fun s => (s.length : ℚ)) "hello" 0 7 3 10
     (by decide) (by decide) (by decide)⟩

/-- C9: every scene preset of the fixed catalog has non-decreasing
gradient stop positions, with the first stop at position `0` and the last
stop at position `1`. -/
theorem scene_gradient_stops_wellformed (k : SceneKey) :
    List.Chain' (· ≤ ·) ((sceneBackgrounds k).gradientStops.map GradientStop.position) ∧
    ((sceneBackgrounds k).gradientStops.map GradientStop.position).head? = some 0 ∧
    ((sceneBackgrounds k).gradientStops.map GradientStop.position).getLast? = some 1 := by
  cases k <;> refine ⟨?_, ?_, ?_⟩ <;>
    simp [sceneBackgrounds] <;> norm_num

/-- C10: an input text consisting only of space characters behaves like
the empty string: `wrapText` emits zero lines and returns the starting
`y` unchanged. -/
theorem wrapText_spaces_only (measure : String → ℚ) (text : String)
    (x y maxWidth lineHeight : ℚ) (h : ∀ c ∈ text.data, c = ' ') :
    wrapText measure text x y maxWidth lineHeight = ⟨[], y⟩ := by
  unfold wrapText
  exact wrapAux_empty_words measure x maxWidth lineHeight _ y (split_all_spaces h)

/-- C10, witness: three spaces emit zero lines and leave the cursor at
the starting `y = 2`. -/
theorem wrapText_spaces_only_witness :
    (∀ c ∈ ("   " : String).data, c = ' ') ∧
    wrapText (fun s => (s.length : ℚ)) "   " 1 2 3 4 = ⟨[], 2⟩ :=
  ⟨by decide,
   wrapText_spaces_only (fun s => (s.length : ℚ)) "   " 1 2 3 4 (by decide)⟩

end ProductStudio
